import Mathlib

/-!
Shallow embedding of `src/getStockInfo.py` (attribute-resolution and
aggregation engine for per-security financial data), together with
theorems settling the specification claims.

Modelling conventions:
* Money amounts, prices and EPS/BPS values are rationals (`ℚ`).
* Timezone-aware pay dates compare as absolute instants, so a pay date is
  a point (`ℚ`, in days) on one common timeline; `now` is the evaluation
  instant on the same timeline.  `pd.Timestamp.now(tz=...)` denotes the
  same instant regardless of the timezone chosen, so the timezone only
  affects presentation, never the 365-day comparison.
* A provider call that may raise is an `Except String α` value: `.error`
  is the raised exception, and a `try/except` block that returns a default
  is a `match` on that value.  Every resolver is therefore total: no
  exception propagates out of it, which embeds "caught, not re-raised".
* The code queries yfinance afresh at every call site (no caching), so the
  environment `Env` records the data source's response to each of the six
  possible queries a single `fetch` can make.  Each resolver also emits
  the list of queries it performed, so that query counts are provable.
-/

namespace GetStockInfo

/-- A dividend event: pay date (absolute instant, in days) and amount.
One row of the frame built by `_dividends` (PayDate, Dividend). -/
structure DivEvent where
  payDate : ℚ
  amount : ℚ
  deriving DecidableEq, Repr

/-- A value stored in the result record dictionary built by `fetch`. -/
inductive Value where
  | str (s : String)
  | num (q : Option ℚ)
  | divs (d : List DivEvent)
  deriving DecidableEq, Repr

/-- One query to the data source (yfinance): price history (`.history`),
descriptive fields (`.info`), or the dividend series (`.dividends`). -/
inductive Query where
  | history
  | info
  | dividends
  deriving DecidableEq, Repr

/-- The data source's responses to the individual queries one `fetch` can
make.  The code issues a fresh provider call at every call site, and each
call can independently fail, so each call site has its own response field:
`histPrice` answers the standalone Price query, `infoEps`/`infoBps` answer
the `.info` accesses made by `_eps`/`_bps`, `divSer` answers the standalone
DividendHistory query, and `divSerY`/`histY` answer the dividend and price
queries made from inside `_yield`. -/
structure Env where
  histPrice : Except String (List ℚ)
  infoEps : Except String (List (String × Option ℚ))
  infoBps : Except String (List (String × Option ℚ))
  divSer : Except String (List DivEvent)
  divSerY : Except String (List DivEvent)
  histY : Except String (List ℚ)

/-- Python `dict.get(k)`: `None` when the key is missing, else the stored
value (which may itself be `None`, i.e. a null field). -/
def pyGet (info : List (String × Option ℚ)) (k : String) : Option ℚ :=
  match info.lookup k with
  | none => none
  | some v => v

/-- Python `str.isdigit()` restricted to ASCII: true iff the string is
non-empty and every character is a decimal digit. -/
def pyIsdigit (s : String) : Bool :=
  !s.isEmpty && s.toList.all (fun c => c.isDigit)

/-- Market inference `_infer_market` (line 44): `"TSE"` if the code is all digits, else `"US"`. -/
def _infer_market (code : String) : String :=
  if pyIsdigit code then "TSE" else "US"

/-- The `mkt = market or _infer_market(code)` idiom (lines 55 and 160):
Python treats `None` and the empty string as falsy, so an explicit
non-empty market wins and otherwise the market is inferred. -/
def resolveMarket (market : Option String) (code : String) : String :=
  match market with
  | none => _infer_market code
  | some m => if m = "" then _infer_market code else m

/-- Price resolver `_latest_close` (line 65): one `.history` query; `None` on a raised
exception or an empty frame, else the last Close. -/
def _latest_close (h : Except String (List ℚ)) : Option ℚ × List Query :=
  ((match h with
    | .error _ => none
    | .ok hist => hist.getLast?), [Query.history])

/-- The ordered candidate keys probed by `_eps` (line 80). -/
def eps_keys : List String := ["trailingEps", "epsTrailingTwelveMonths", "forwardEps"]

/-- The ordered candidate keys probed by `_bps` (line 93). -/
def bps_keys : List String := ["bookValuePerShare", "bookValue"]

/-- The `for k in keys: if (v := info.get(k)) is not None: return v` loop
shared by `_eps` and `_bps`. -/
def probe (info : List (String × Option ℚ)) : List String → Option ℚ
  | [] => none
  | k :: ks =>
    match pyGet info k with
    | some v => some v
    | none => probe info ks

/-- EPS resolver `_eps` (line 77): one `.info` query; `None` on a raised exception,
else the first non-null candidate key value. -/
def _eps (i : Except String (List (String × Option ℚ))) : Option ℚ × List Query :=
  ((match i with
    | .error _ => none
    | .ok info => probe info eps_keys), [Query.info])

/-- BPS resolver `_bps` (line 90): one `.info` query; `None` on a raised exception,
else the first non-null candidate key value. -/
def _bps (i : Except String (List (String × Option ℚ))) : Option ℚ × List Query :=
  ((match i with
    | .error _ => none
    | .ok info => probe info bps_keys), [Query.info])

/-- Dividend resolver `_dividends` (line 103): one `.dividends` query; an empty frame
(`pd.DataFrame()`) both on a raised exception and on an empty series,
else the series reshaped into (PayDate, Dividend) rows. -/
def _dividends (dv : Except String (List DivEvent)) : List DivEvent × List Query :=
  ((match dv with
    | .error _ => []
    | .ok ser => if ser.isEmpty then [] else ser), [Query.dividends])

/-- Python `round` at integer precision: round half to even (banker's
rounding), the documented behaviour of built-in `round`. -/
def roundHalfEven (q : ℚ) : ℤ :=
  let f := ⌊q⌋
  let frac := q - f
  if frac < 1/2 then f
  else if 1/2 < frac then f + 1
  else if f % 2 = 0 then f else f + 1

/-- Python `round(x, 2)`: round half to even at two decimal places. -/
def pyRound2 (q : ℚ) : ℚ := (roundHalfEven (q * 100) : ℚ) / 100

/-- Yield calculator `_yield` (line 115): fetches the dividend frame (its own `.dividends`
query); `None` if the frame is empty; otherwise keeps events with
`PayDate >= now - 365 days`, sums their amounts, fetches the latest close
(its own `.history` query), returns `None` when that price is `None` or
zero, else the rounded percentage yield. -/
def _yield (dv : Except String (List DivEvent)) (h : Except String (List ℚ))
    (now : ℚ) : Option ℚ × List Query :=
  let d := _dividends dv
  if d.1.isEmpty then (none, d.2)
  else
    let one_year_ago := now - 365
    let recent := d.1.filter (fun e => decide (one_year_ago ≤ e.payDate))
    let total := (recent.map DivEvent.amount).sum
    let lc := _latest_close h
    match lc.1 with
    | none => (none, d.2 ++ lc.2)
    | some lp =>
      if lp = 0 then (none, d.2 ++ lc.2)
      else (some (pyRound2 (total / lp * 100)), d.2 ++ lc.2)

/-- Aggregator `fetch` (line 147): builds the per-identifier record in insertion
order Code, Market, then each requested attribute, concatenating the
query traces of the resolvers it invokes.  The `try/except` around the
block is vacuous because every resolver catches internally, so the
embedding is a total function. -/
def fetch (env : Env) (code : String) (market : Option String)
    (want_price want_eps want_bps want_div want_div_yield exclude_dividends : Bool)
    (now : ℚ) : List (String × Value) × List Query :=
  let mkt := resolveMarket market code
  let r0 : List (String × Value) × List Query :=
    ([("Code", Value.str code), ("Market", Value.str mkt)], [])
  let r1 :=
    if want_price then
      let q := _latest_close env.histPrice
      (r0.1 ++ [("Price", Value.num q.1)], r0.2 ++ q.2)
    else r0
  let r2 :=
    if want_eps then
      let q := _eps env.infoEps
      (r1.1 ++ [("EPS", Value.num q.1)], r1.2 ++ q.2)
    else r1
  let r3 :=
    if want_bps then
      let q := _bps env.infoBps
      (r2.1 ++ [("BPS", Value.num q.1)], r2.2 ++ q.2)
    else r2
  let r4 :=
    if want_div && !exclude_dividends then
      let q := _dividends env.divSer
      (r3.1 ++ [("Dividends", Value.divs q.1)], r3.2 ++ q.2)
    else r3
  let r5 :=
    if want_div_yield then
      let q := _yield env.divSerY env.histY now
      (r4.1 ++ [("Yield", Value.num q.1)], r4.2 ++ q.2)
    else r4
  r5

/-- The CSV row built at line 261: the record with the `Dividends` key
dropped.  For CSV runs `main` also passes `exclude_dividends=bool(args.csv)`
into `fetch` (line 242). -/
def exportRow (r : List (String × Value)) : List (String × Value) :=
  r.filter (fun kv => kv.1 != "Dividends")

/-- Whitespace stripped by Python `str.strip()`. -/
def pySpace (c : Char) : Bool :=
  c = ' ' || c = '\t' || c = '\n' || c = '\r' || c = '\x0b' || c = '\x0c'

/-- Python `str.strip()` on a character list. -/
def pyStrip (l : List Char) : List Char :=
  ((l.dropWhile pySpace).reverse.dropWhile pySpace).reverse

/-- Split a character list on a separator character (Python `str.split(sep)`):
always at least one (possibly empty) piece. -/
def splitOnChar (sep : Char) : List Char → List (List Char)
  | [] => [[]]
  | c :: cs =>
    let r := splitOnChar sep cs
    if c = sep then [] :: r
    else
      match r with
      | [] => [[c]]
      | t :: ts => (c :: t) :: ts

/-- Normalizer `_read_code_file` (line 182) applied to the file's text: split into
lines, split each line on commas, strip every token, keep only the
all-digit tokens of length at most 5.  (`splitlines` is modelled as a
split on `'\n'`; a `'\r'` left on a token is removed by the strip.) -/
def _read_code_file (text : String) : List String :=
  let raw := (splitOnChar '\n' text.toList).flatMap
    (fun part => (splitOnChar ',' part).map (fun s => String.mk (pyStrip s)))
  raw.filter (fun s => pyIsdigit s && decide (s.length ≤ 5))

/-! Example data used by the witnesses: with `now = 1000`, the events of
`exDivs` lie 400, 100 and 10 days in the past, matching the spec's worked
example; `exDivsOld` has its only event outside the trailing window. -/

/-- Example series: pay dates 400, 100, 10 days before `now = 1000`. -/
def exDivs : List DivEvent := [⟨600, 10⟩, ⟨900, 15⟩, ⟨990, 5⟩]

/-- Example series whose only event is 400 days before `now = 1000`. -/
def exDivsOld : List DivEvent := [⟨600, 10⟩]

/-- Rounding zero gives zero. -/
lemma pyRound2_zero : pyRound2 0 = 0 := by norm_num [pyRound2, roundHalfEven]

/-- C1: on a non-empty dividend series (pay dates compared as instants,
which is what timezone-aligned comparison amounts to) and an available
non-zero latest price, `_yield` keeps exactly the events whose pay date
lies within the trailing 365 days of the evaluation instant, sums their
amounts, and returns that sum divided by the latest price, times 100,
rounded (half to even) to 2 decimal places. -/
theorem yield_trailing_window_formula
    (dv : Except String (List DivEvent)) (h : Except String (List ℚ))
    (now : ℚ) (ds : List DivEvent) (lp : ℚ)
    (hds : dv = Except.ok ds) (hne : ds ≠ [])
    (hlp : (_latest_close h).1 = some lp) (hlp0 : lp ≠ 0) :
    (_yield dv h now).1 =
      some (pyRound2
        (((ds.filter (fun e => decide (now - 365 ≤ e.payDate))).map DivEvent.amount).sum
          / lp * 100)) := by
  subst hds
  have hne' : ds.isEmpty = false := by
    cases ds with
    | nil => exact absurd rfl hne
    | cons a t => rfl
  have hd1 : (_dividends (Except.ok ds)).1 = ds := by
    simp [_dividends, hne']
  simp only [_yield, hd1, hne', Bool.false_eq_true, if_false, hlp, if_neg hlp0]

/-- Witness for C1: the spec's worked example, events 400/100/10 days ago
with amounts 10/15/5 and latest price 1000, yields 2.00. -/
theorem yield_trailing_window_formula_witness :
    exDivs ≠ [] ∧ (_latest_close (Except.ok [1000])).1 = some 1000 ∧ (1000 : ℚ) ≠ 0
    ∧ (_yield (Except.ok exDivs) (Except.ok [1000]) 1000).1 = some 2 := by
  refine ⟨by decide, by decide, by norm_num, ?_⟩
  rw [yield_trailing_window_formula (Except.ok exDivs) (Except.ok [1000]) 1000 exDivs 1000
    rfl (by decide) (by decide) (by norm_num)]
  simp only [exDivs, List.filter_cons, List.filter_nil, decide_eq_true_eq,
    List.map_cons, List.map_nil, List.sum_cons, List.sum_nil]
  norm_num [pyRound2, roundHalfEven]

/-- C2: `_yield` is `None` whenever the fetched dividend frame is empty or
the latest price is `None` or zero, and is exactly `0.00` (present, not
`None`) when the series is non-empty, no event falls in the trailing
365-day window, and the latest price is available and non-zero. -/
theorem yield_absent_and_zero_cases :
    (∀ (dv : Except String (List DivEvent)) (h : Except String (List ℚ)) (now : ℚ),
        (_dividends dv).1 = [] → (_yield dv h now).1 = none)
    ∧ (∀ (dv : Except String (List DivEvent)) (h : Except String (List ℚ)) (now : ℚ)
        (ds : List DivEvent), dv = Except.ok ds → ds ≠ [] →
        ((_latest_close h).1 = none ∨ (_latest_close h).1 = some 0) →
        (_yield dv h now).1 = none)
    ∧ (∀ (dv : Except String (List DivEvent)) (h : Except String (List ℚ)) (now : ℚ)
        (ds : List DivEvent) (lp : ℚ), dv = Except.ok ds → ds ≠ [] →
        (∀ e ∈ ds, e.payDate < now - 365) →
        (_latest_close h).1 = some lp → lp ≠ 0 →
        (_yield dv h now).1 = some 0) := by
  refine ⟨?_, ?_, ?_⟩
  · intro dv h now hd
    simp [_yield, hd]
  · intro dv h now ds hds hne hlc
    subst hds
    have hne' : ds.isEmpty = false := by
      cases ds with
      | nil => exact absurd rfl hne
      | cons a t => rfl
    have hd1 : (_dividends (Except.ok ds)).1 = ds := by
      simp [_dividends, hne']
    rcases hlc with hlc | hlc <;> simp [_yield, hd1, hne', hlc]
  · intro dv h now ds lp hds hne hold hlc hlp0
    subst hds
    have hne' : ds.isEmpty = false := by
      cases ds with
      | nil => exact absurd rfl hne
      | cons a t => rfl
    have hd1 : (_dividends (Except.ok ds)).1 = ds := by
      simp [_dividends, hne']
    have hfil : ds.filter (fun e => decide (now - 365 ≤ e.payDate)) = [] := by
      rw [List.filter_eq_nil_iff]
      intro e he
      simpa using not_le.mpr (hold e he)
    simp only [_yield, hd1, hne', Bool.false_eq_true, if_false, hlc, if_neg hlp0, hfil,
      List.map_nil, List.sum_nil, zero_div, zero_mul, pyRound2_zero]

/-- Witness for C2: `None` on a failed query, an empty series, and a zero
price; `0.00` when the only event is 400 days old and the price is 1000. -/
theorem yield_absent_and_zero_cases_witness :
    (_yield (Except.error "boom") (Except.ok ([1000] : List ℚ)) 1000).1 = none
    ∧ (_yield (Except.ok exDivs) (Except.ok ([] : List ℚ)) 1000).1 = none
    ∧ (_yield (Except.ok exDivs) (Except.ok ([0] : List ℚ)) 1000).1 = none
    ∧ (_yield (Except.ok exDivsOld) (Except.ok ([1000] : List ℚ)) 1000).1 = some 0 := by
  refine ⟨?_, ?_, ?_, ?_⟩
  · exact yield_absent_and_zero_cases.1 _ _ _ (by decide)
  · exact yield_absent_and_zero_cases.2.1 _ _ _ exDivs rfl (by decide) (Or.inl (by decide))
  · exact yield_absent_and_zero_cases.2.1 _ _ _ exDivs rfl (by decide) (Or.inr (by decide))
  · exact yield_absent_and_zero_cases.2.2 _ _ _ exDivsOld 1000 rfl (by decide)
      (by
        intro e he
        simp only [exDivsOld, List.mem_singleton] at he
        subst he
        show (600 : ℚ) < 1000 - 365
        norm_num)
      (by decide) (by norm_num)

/-- Environment with a working data source: price 1000, EPS and BPS fields
present, and the example dividend series. -/
def env0 : Env :=
  { histPrice := Except.ok [1000], infoEps := Except.ok [("trailingEps", some 100)],
    infoBps := Except.ok [("bookValue", some 50)], divSer := Except.ok exDivs,
    divSerY := Except.ok exDivs, histY := Except.ok [1000] }

/-- Environment whose dividend queries raise a provider error. -/
def envDivFail : Env :=
  { env0 with divSer := Except.error "transport failure",
              divSerY := Except.error "transport failure" }

/-- Environment whose dividend queries succeed with an empty series. -/
def envDivEmpty : Env :=
  { env0 with divSer := Except.ok [], divSerY := Except.ok [] }

/-- Counterexample to C3: on a total dividend-query failure the record's
`Dividends` entry is the same present-but-empty frame as the one produced
by a successful query with no events — the resolver never yields an
absent value and cannot distinguish the two cases. -/
theorem dividends_failure_same_as_empty :
    ((fetch envDivFail "7203" none false false false true false false 0).1.lookup "Dividends"
      = some (Value.divs []))
    ∧ ((fetch envDivEmpty "7203" none false false false true false false 0).1.lookup "Dividends"
      = some (Value.divs [])) := by
  constructor <;> rfl

/-- C3 amended: `_dividends` collapses both a raised provider error and an
empty series to the same empty frame, and returns a non-empty series
unchanged; it never produces an absent value. -/
theorem dividends_failure_collapses_to_empty :
    (∀ e : String, (_dividends (Except.error e)).1 = [])
    ∧ (_dividends (Except.ok ([] : List DivEvent))).1 = []
    ∧ (∀ ser : List DivEvent, ser ≠ [] → (_dividends (Except.ok ser)).1 = ser) := by
  refine ⟨fun e => rfl, rfl, ?_⟩
  intro ser hne
  have hne' : ser.isEmpty = false := by
    cases ser with
    | nil => exact absurd rfl hne
    | cons a t => rfl
  simp [_dividends, hne']

/-- Witness for the amended C3. -/
theorem dividends_failure_collapses_to_empty_witness :
    (_dividends (Except.error "transport failure")).1 = []
    ∧ (_dividends (Except.ok exDivs)).1 = exDivs :=
  ⟨dividends_failure_collapses_to_empty.1 "transport failure",
    dividends_failure_collapses_to_empty.2.2 exDivs (by decide)⟩

/-- Trace of the yield calculator: it always performs its own dividend
query, and also its own price-history query unless the dividend frame
came back empty (in which case it returns early). -/
lemma yield_trace (dv : Except String (List DivEvent)) (h : Except String (List ℚ))
    (now : ℚ) :
    (_yield dv h now).2 =
      if (_dividends dv).1.isEmpty then [Query.dividends]
      else [Query.dividends, Query.history] := by
  have h1 : (_dividends dv).2 = [Query.dividends] := rfl
  have h2 : (_latest_close h).2 = [Query.history] := rfl
  cases hd : (_dividends dv).1.isEmpty with
  | true => simp only [_yield, hd, if_true, h1]
  | false =>
    cases hlc : (_latest_close h).1 with
    | none => simp only [_yield, hd, Bool.false_eq_true, if_false, hlc, h1, h2]; rfl
    | some lp =>
      by_cases hz : lp = 0
      · simp only [_yield, hd, Bool.false_eq_true, if_false, hlc, if_pos hz, h1, h2]; rfl
      · simp only [_yield, hd, Bool.false_eq_true, if_false, hlc, if_neg hz, h1, h2]; rfl

/-- Counterexample to C4: with Price and DividendYield requested (and a
non-empty dividend series), one `fetch` performs the price-history query
twice, and with DividendHistory and DividendYield requested it performs
the dividend query twice — the aggregator does not reuse either result
for the yield computation. -/
theorem fetch_queries_price_and_dividends_twice :
    ((fetch env0 "7203" none true false false false true false 1000).2.count Query.history = 2)
    ∧ ((fetch env0 "7203" none false false false true true false 1000).2.count Query.dividends
      = 2) := by
  constructor <;> rfl

/-- C4 amended: per `fetch`, the standalone Price / EPS / BPS /
DividendHistory resolvers each query the data source exactly once when
requested, and the yield computation issues its own dividend query (plus
its own price-history query when the fetched frame is non-empty) with no
reuse, so a flag combination requesting both a standalone attribute and
the yield repeats that query. -/
theorem fetch_query_counts (env : Env) (code : String) (market : Option String)
    (wp we wb wd wy excl : Bool) (now : ℚ) :
    ((fetch env code market wp we wb wd wy excl now).2.count Query.history
      = (if wp then 1 else 0)
        + (if wy && !(_dividends env.divSerY).1.isEmpty then 1 else 0))
    ∧ ((fetch env code market wp we wb wd wy excl now).2.count Query.dividends
      = (if wd && !excl then 1 else 0) + (if wy then 1 else 0))
    ∧ ((fetch env code market wp we wb wd wy excl now).2.count Query.info
      = (if we then 1 else 0) + (if wb then 1 else 0)) := by
  have hy := yield_trace env.divSerY env.histY now
  cases hys : (_dividends env.divSerY).1.isEmpty <;>
    rw [hys] at hy <;>
    cases wp <;> cases we <;> cases wb <;> cases wd <;> cases wy <;> cases excl <;>
      simp_all [fetch, _latest_close, _eps, _bps, _dividends, List.count_append,
        List.count_cons, List.count_nil]

/-- Environment where only the EPS `.info` query raises. -/
def envEpsFail : Env :=
  { histPrice := Except.ok [500], infoEps := Except.error "HTTP 404",
    infoBps := Except.ok [("bookValuePerShare", some 50)],
    divSer := Except.ok [], divSerY := Except.ok [], histY := Except.ok [] }

/-- C5: a provider exception on the EPS query does not prevent resolution
of the other requested attributes: the record still carries EPS as a
present-but-`None` entry while Price and BPS (requested and available)
are populated, for every identifier, market and remaining flag choice.
The embedding is a total function, so no exception reaches the caller. -/
theorem eps_fault_isolated (env : Env) (code : String) (market : Option String) (now : ℚ)
    (e : String) (hist : List ℚ) (pr b : ℚ)
    (heps : env.infoEps = Except.error e)
    (hh : env.histPrice = Except.ok hist) (hpr : hist.getLast? = some pr)
    (hb : (_bps env.infoBps).1 = some b)
    (wd wy excl : Bool) :
    ((fetch env code market true true true wd wy excl now).1.lookup "EPS"
        = some (Value.num none))
    ∧ ((fetch env code market true true true wd wy excl now).1.lookup "Price"
        = some (Value.num (some pr)))
    ∧ ((fetch env code market true true true wd wy excl now).1.lookup "BPS"
        = some (Value.num (some b))) := by
  cases wd <;> cases wy <;> cases excl <;>
    simp [fetch, _eps, _latest_close, heps, hh, hpr, hb, List.lookup]

/-- Witness for C5: EPS query raises HTTP 404, Price resolves to 500 and
BPS to 50. -/
theorem eps_fault_isolated_witness :
    ((fetch envEpsFail "AAPL" none true true true false false false 0).1.lookup "EPS"
        = some (Value.num none))
    ∧ ((fetch envEpsFail "AAPL" none true true true false false false 0).1.lookup "Price"
        = some (Value.num (some 500)))
    ∧ ((fetch envEpsFail "AAPL" none true true true false false false 0).1.lookup "BPS"
        = some (Value.num (some 50))) :=
  eps_fault_isolated envEpsFail "AAPL" none 0 "HTTP 404" [500] 500 50 rfl rfl rfl rfl
    false false false

/-- Descriptive fields carrying only `epsTrailingTwelveMonths`. -/
def infoTTM : List (String × Option ℚ) := [("epsTrailingTwelveMonths", some 120.5)]

/-- C6: `_eps` probes `trailingEps`, `epsTrailingTwelveMonths`,
`forwardEps` in order and returns the first non-null hit, `None` when no
candidate key yields a value; `_bps` does the same over
`bookValuePerShare`, `bookValue`. -/
theorem eps_bps_first_hit :
    (∀ (info : List (String × Option ℚ)) (v : ℚ),
        pyGet info "trailingEps" = some v → (_eps (Except.ok info)).1 = some v)
    ∧ (∀ (info : List (String × Option ℚ)) (v : ℚ),
        pyGet info "trailingEps" = none → pyGet info "epsTrailingTwelveMonths" = some v →
        (_eps (Except.ok info)).1 = some v)
    ∧ (∀ (info : List (String × Option ℚ)) (v : ℚ),
        pyGet info "trailingEps" = none → pyGet info "epsTrailingTwelveMonths" = none →
        pyGet info "forwardEps" = some v → (_eps (Except.ok info)).1 = some v)
    ∧ (∀ info : List (String × Option ℚ),
        (∀ k ∈ eps_keys, pyGet info k = none) → (_eps (Except.ok info)).1 = none)
    ∧ (∀ (info : List (String × Option ℚ)) (v : ℚ),
        pyGet info "bookValuePerShare" = some v → (_bps (Except.ok info)).1 = some v)
    ∧ (∀ (info : List (String × Option ℚ)) (v : ℚ),
        pyGet info "bookValuePerShare" = none → pyGet info "bookValue" = some v →
        (_bps (Except.ok info)).1 = some v)
    ∧ (∀ info : List (String × Option ℚ),
        (∀ k ∈ bps_keys, pyGet info k = none) → (_bps (Except.ok info)).1 = none) := by
  refine ⟨?_, ?_, ?_, ?_, ?_, ?_, ?_⟩
  · intro info v h1
    simp [_eps, eps_keys, probe, h1]
  · intro info v h1 h2
    simp [_eps, eps_keys, probe, h1, h2]
  · intro info v h1 h2 h3
    simp [_eps, eps_keys, probe, h1, h2, h3]
  · intro info h
    have h1 := h "trailingEps" (by simp [eps_keys])
    have h2 := h "epsTrailingTwelveMonths" (by simp [eps_keys])
    have h3 := h "forwardEps" (by simp [eps_keys])
    simp [_eps, eps_keys, probe, h1, h2, h3]
  · intro info v h1
    simp [_bps, bps_keys, probe, h1]
  · intro info v h1 h2
    simp [_bps, bps_keys, probe, h1, h2]
  · intro info h
    have h1 := h "bookValuePerShare" (by simp [bps_keys])
    have h2 := h "bookValue" (by simp [bps_keys])
    simp [_bps, bps_keys, probe, h1, h2]

/-- Witness for C6: a mapping with `epsTrailingTwelveMonths = 120.5` and
no `trailingEps` resolves EPS to 120.5. -/
theorem eps_bps_first_hit_witness :
    pyGet infoTTM "trailingEps" = none
    ∧ pyGet infoTTM "epsTrailingTwelveMonths" = some 120.5
    ∧ (_eps (Except.ok infoTTM)).1 = some 120.5 :=
  ⟨rfl, rfl, eps_bps_first_hit.2.1 infoTTM 120.5 rfl rfl⟩

/-- C7: market resolution is a pure total function; with no explicit
market an all-digit identifier maps to `"TSE"` and every identifier with
a non-digit character to `"US"` (`"7203"` to TSE, `"AAPL"` to US), and a
supplied (non-empty) explicit market is used verbatim whatever the
identifier's shape. -/
theorem market_resolution_pure_total :
    (∀ code : String, code ≠ "" → (∀ c ∈ code.toList, c.isDigit = true) →
        _infer_market code = "TSE")
    ∧ (∀ code : String, (∃ c ∈ code.toList, c.isDigit = false) → _infer_market code = "US")
    ∧ _infer_market "7203" = "TSE"
    ∧ _infer_market "AAPL" = "US"
    ∧ (∀ (code m : String), m ≠ "" → resolveMarket (some m) code = m)
    ∧ (∀ code : String, resolveMarket none code = _infer_market code) := by
  refine ⟨?_, ?_, by decide, by decide, ?_, fun code => rfl⟩
  · intro code hne hdig
    have h1 : code.isEmpty = false := by
      cases h : code.isEmpty with
      | false => rfl
      | true => exact absurd ((String.isEmpty_iff code).mp h) hne
    have h2 : code.toList.all (fun c => c.isDigit) = true := List.all_eq_true.mpr hdig
    have h3 : pyIsdigit code = true := by
      unfold pyIsdigit
      rw [h1, h2]
      rfl
    simp [_infer_market, h3]
  · rintro code ⟨c, hc, hcd⟩
    have h2 : code.toList.all (fun c => c.isDigit) = false := by
      rw [List.all_eq_false]
      exact ⟨c, hc, by simp [hcd]⟩
    have h3 : pyIsdigit code = false := by
      unfold pyIsdigit
      rw [h2]
      simp
    simp [_infer_market, h3]
  · intro code m hm
    simp [resolveMarket, hm]

/-- Witness for C7: inference on `"7203"` and `"AAPL"`, and the explicit
market `"US"` overriding the all-digit shape of `"7203"`. -/
theorem market_resolution_pure_total_witness :
    _infer_market "7203" = "TSE" ∧ _infer_market "AAPL" = "US"
    ∧ resolveMarket (some "US") "7203" = "US" :=
  ⟨market_resolution_pure_total.1 "7203" (by decide) (by decide),
   market_resolution_pure_total.2.1 "AAPL" ⟨'A', by decide, by decide⟩,
   market_resolution_pure_total.2.2.2.2.1 "7203" "US" (by decide)⟩

/-- C8 (file-source part): `_read_code_file` strips whitespace around
every token of the newline/comma-delimited text and keeps exactly the
all-digit tokens of length at most 5; `"AAPL"` (non-digit), `"123456"`
(too long) and blank tokens are dropped.  (The surrounding `main` is
draft-corrupted and cannot run; see the claim record.) -/
theorem read_code_file_trim_and_filter :
    _read_code_file " 7203\t, AAPL\n123456\n 5016 \n\n" = ["7203", "5016"] := by decide

/-- Record built by one `fetch`: Code and Market first, then one entry
per requested attribute in the fixed order Price, EPS, BPS, Dividends,
Yield, each carrying its resolver's result. -/
lemma fetch_record (env : Env) (code : String) (market : Option String)
    (wp we wb wd wy excl : Bool) (now : ℚ) :
    (fetch env code market wp we wb wd wy excl now).1
      = [("Code", Value.str code), ("Market", Value.str (resolveMarket market code))]
        ++ (if wp then [("Price", Value.num (_latest_close env.histPrice).1)] else [])
        ++ (if we then [("EPS", Value.num (_eps env.infoEps).1)] else [])
        ++ (if wb then [("BPS", Value.num (_bps env.infoBps).1)] else [])
        ++ (if wd && !excl then [("Dividends", Value.divs (_dividends env.divSer).1)] else [])
        ++ (if wy then [("Yield", Value.num (_yield env.divSerY env.histY now).1)] else []) := by
  cases wp <;> cases we <;> cases wb <;> cases wd <;> cases wy <;> cases excl <;>
    simp [fetch]

/-- C9: in a CSV run (`fetch` called with `exclude_dividends` set, the
row then filtered at line 261) no exported row contains a `Dividends`
column, and the columns are Code, Market, then the requested scalar
attributes in the order Price, EPS, BPS, Yield. -/
theorem csv_rows_have_no_dividends_column
    (env : Env) (code : String) (market : Option String)
    (wp we wb wd wy : Bool) (now : ℚ) :
    ((exportRow (fetch env code market wp we wb wd wy true now).1).map Prod.fst
      = ["Code", "Market"]
        ++ (if wp then ["Price"] else []) ++ (if we then ["EPS"] else [])
        ++ (if wb then ["BPS"] else []) ++ (if wy then ["Yield"] else []))
    ∧ "Dividends" ∉
        (exportRow (fetch env code market wp we wb wd wy true now).1).map Prod.fst := by
  rw [fetch_record]
  cases wp <;> cases we <;> cases wb <;> cases wd <;> cases wy <;>
    simp [exportRow, List.filter]

/-- C10: the record of one `fetch` always contains Code (the input
identifier) and Market (explicit non-empty market verbatim, else the
inferred one); it contains a scalar-attribute key exactly when the
corresponding flag is set, carrying the resolver's result (a present
`None` when unavailable, never a missing key); the Dividends key is
present exactly when `want_div` is set and `exclude_dividends` is not. -/
theorem fetch_record_shape
    (env : Env) (code : String) (market : Option String)
    (wp we wb wd wy excl : Bool) (now : ℚ) :
    ((fetch env code market wp we wb wd wy excl now).1.map Prod.fst
      = ["Code", "Market"]
        ++ (if wp then ["Price"] else []) ++ (if we then ["EPS"] else [])
        ++ (if wb then ["BPS"] else [])
        ++ (if wd && !excl then ["Dividends"] else [])
        ++ (if wy then ["Yield"] else []))
    ∧ ((fetch env code market wp we wb wd wy excl now).1.lookup "Code"
        = some (Value.str code))
    ∧ (market = none →
        (fetch env code market wp we wb wd wy excl now).1.lookup "Market"
          = some (Value.str (_infer_market code)))
    ∧ (∀ m, market = some m → m ≠ "" →
        (fetch env code market wp we wb wd wy excl now).1.lookup "Market"
          = some (Value.str m))
    ∧ (wp = true →
        (fetch env code market wp we wb wd wy excl now).1.lookup "Price"
          = some (Value.num (_latest_close env.histPrice).1))
    ∧ (we = true →
        (fetch env code market wp we wb wd wy excl now).1.lookup "EPS"
          = some (Value.num (_eps env.infoEps).1))
    ∧ (wb = true →
        (fetch env code market wp we wb wd wy excl now).1.lookup "BPS"
          = some (Value.num (_bps env.infoBps).1))
    ∧ (wy = true →
        (fetch env code market wp we wb wd wy excl now).1.lookup "Yield"
          = some (Value.num (_yield env.divSerY env.histY now).1))
    ∧ ((wd && !excl) = true →
        (fetch env code market wp we wb wd wy excl now).1.lookup "Dividends"
          = some (Value.divs (_dividends env.divSer).1)) := by
  refine ⟨?_, ?_, ?_, ?_, ?_, ?_, ?_, ?_, ?_⟩
  · rw [fetch_record]
    cases wp <;> cases we <;> cases wb <;> cases wd <;> cases wy <;> cases excl <;> simp
  · rw [fetch_record]
    simp [List.lookup]
  · rintro rfl
    rw [fetch_record]
    simp [List.lookup, resolveMarket]
  · rintro m rfl hm
    rw [fetch_record]
    simp [List.lookup, resolveMarket, hm]
  · rintro rfl
    rw [fetch_record]
    simp [List.lookup]
  · rintro rfl
    rw [fetch_record]
    cases wp <;> simp [List.lookup]
  · rintro rfl
    rw [fetch_record]
    cases wp <;> cases we <;> simp [List.lookup]
  · rintro rfl
    rw [fetch_record]
    cases wp <;> cases we <;> cases wb <;> cases wd <;> cases excl <;> simp [List.lookup]
  · intro hkey
    rw [fetch_record]
    cases wp <;> cases we <;> cases wb <;> simp [List.lookup, hkey]

/-- Witness for C10: with Price and EPS requested for `"7203"` (no
explicit market) against `env0`, the record carries Market `"TSE"` from
inference and Price 1000. -/
theorem fetch_record_shape_witness :
    ((fetch env0 "7203" none true true false false false false 1000).1.lookup "Market"
      = some (Value.str "TSE"))
    ∧ ((fetch env0 "7203" none true true false false false false 1000).1.lookup "Price"
      = some (Value.num (some 1000))) := by
  have h := fetch_record_shape env0 "7203" none true true false false false false 1000
  constructor
  · rw [h.2.2.1 rfl]
    decide
  · rw [h.2.2.2.2.1 rfl]
    decide

end GetStockInfo
